import Mathlib

set_option linter.unusedVariables false

/-!
Shallow embedding of the mseipopt binding layer.

The repository wraps the IPOPT C interface at three levels: `bare.py` (raw
ctypes declarations), `bare_np.py` (numpy-aware wrappers with validation and
exception containment) and `ez.py` (a pythonic convenience layer).  The native
solver itself is external; what is modelled here is the marshaling logic of
`bare_np.py` and `ez.py`: callback wrapping and exception handling, argument
validation, the problem-handle life cycle, buffer allocation in `ez.Problem.solve`
and the two-phase sparse callbacks.

Doubles are handled opaquely by the binding (no arithmetic is performed on
them beyond allocating zero-filled buffers), so they are modelled by
integers (`R`).  Fallible Python code is modelled with `PyResult` / `Option`
exception values; the abstract native library appears as explicitly passed
function parameters and success flags.
-/

/-- Model of a C double as stored in the arrays the binding marshals.  The
binding never computes with the values, so an abstract integer suffices. -/
abbrev R := Int

/-- The Python exception classes that the binding distinguishes:
`ez.InvalidPoint`, the builtin `KeyboardInterrupt`, and every other
`BaseException` subclass (lumped together, since the code treats them all
alike). -/
inductive PyExcClass where
  | invalidPoint
  | keyboardInterrupt
  | otherException
deriving DecidableEq

/-- Result of calling a Python function: a returned value, or a raised
exception (any `BaseException`). -/
inductive PyResult (α : Type) where
  | ok (v : α)
  | exc (e : PyExcClass)
deriving DecidableEq

/-- Scalar arguments of the IPOPT intermediate callback
(`bare.Intermediate_CB`), in the order of `IpStdCInterface.h`. -/
structure IterInfo where
  alg_mod : Int
  iter_count : Int
  obj_value : R
  inf_pr : R
  inf_du : R
  mu : R
  d_norm : R
  regularization_size : R
  alpha_du : R
  alpha_pr : R
  ls_trials : Int

/-! ## bare_np callback wrappers

Each `wrap_*` function of `bare_np.py` converts the raw pointers to array
views and calls the user function inside `try: ... except BaseException`.
The user function is modelled as returning `PyResult Int` (its integer status
or a raised exception).  Writes the user function performs into the output
buffers are not observable at this layer and are modelled in the ez layer.
The wrapper result is a pair: the wrapper's own Python outcome (which would
be `.exc` only if an exception escaped the wrapper) and the exception passed
to the handler when the handler was called (`handler_callable` models
Python's `callable(handler)` test). -/

/-- `bare_np.wrap_f`: wrapper(n, x, new_x, obj_value, user_data) calls
`f(x_array, new_x, obj_value_array)`; any raised `BaseException` is caught,
given to the handler when callable, and turned into a 0 return. -/
def wrap_f (f : List R → Int → PyResult Int) (handler_callable : Bool)
    (n : Nat) (x : List R) (new_x : Int) : PyResult Int × Option PyExcClass :=
  match f x new_x with
  | .ok v => (.ok v, none)
  | .exc e => (.ok 0, if handler_callable then some e else none)

/-- `bare_np.wrap_grad_f`: wrapper(n, x, new_x, grad_ptr, user_data) calls
`grad_f(x_array, new_x, grad_f_array)` with the same exception containment. -/
def wrap_grad_f (grad_f : List R → Int → PyResult Int) (handler_callable : Bool)
    (n : Nat) (x : List R) (new_x : Int) : PyResult Int × Option PyExcClass :=
  match grad_f x new_x with
  | .ok v => (.ok v, none)
  | .exc e => (.ok 0, if handler_callable then some e else none)

/-- `bare_np.wrap_g`: wrapper(n, x, new_x, m, g_ptr, user_data) calls
`g(x_array, new_x, g_array)` with the same exception containment. -/
def wrap_g (g : List R → Int → PyResult Int) (handler_callable : Bool)
    (n : Nat) (x : List R) (new_x : Int) (m : Nat) :
    PyResult Int × Option PyExcClass :=
  match g x new_x with
  | .ok v => (.ok v, none)
  | .exc e => (.ok 0, if handler_callable then some e else none)

/-- `bare_np.wrap_jac_g`: the pointers `x`, `iRow`, `jCol`, `values` may be
null (modelled as `none`); the wrapper passes the converted views (or `None`)
to `jac_g` with the same exception containment. -/
def wrap_jac_g
    (jac_g : Option (List R) → Int → Option (List Int) → Option (List Int) →
      Option (List R) → PyResult Int)
    (handler_callable : Bool) (n : Nat) (x : Option (List R)) (new_x : Int)
    (m nele_jac : Nat) (iRow jCol : Option (List Int))
    (values : Option (List R)) : PyResult Int × Option PyExcClass :=
  match jac_g x new_x iRow jCol values with
  | .ok v => (.ok v, none)
  | .exc e => (.ok 0, if handler_callable then some e else none)

/-- `bare_np.wrap_h`: same containment for the Hessian callback, whose
pointer arguments `x`, `mult`, `iRow`, `jCol`, `values` may each be null. -/
def wrap_h
    (h : Option (List R) → Int → R → Option (List R) → Int →
      Option (List Int) → Option (List Int) → Option (List R) → PyResult Int)
    (handler_callable : Bool) (n : Nat) (x : Option (List R)) (new_x : Int)
    (obj_factor : R) (m : Nat) (mult : Option (List R)) (new_mult : Int)
    (nele_hess : Nat) (iRow jCol : Option (List Int))
    (values : Option (List R)) : PyResult Int × Option PyExcClass :=
  match h x new_x obj_factor mult new_mult iRow jCol values with
  | .ok v => (.ok v, none)
  | .exc e => (.ok 0, if handler_callable then some e else none)

/-- `bare_np.wrap_intermediate_cb`: same containment for the intermediate
callback, which receives only scalar arguments. -/
def wrap_intermediate_cb (cb : IterInfo → PyResult Int)
    (handler_callable : Bool) (info : IterInfo) :
    PyResult Int × Option PyExcClass :=
  match cb info with
  | .ok v => (.ok v, none)
  | .exc e => (.ok 0, if handler_callable then some e else none)

/-- C1: every callback wrapped by the array-aware layer (objective,
constraints, gradient, Jacobian, Hessian, intermediate) never lets an
exception propagate: its outcome is always a returned integer; and whenever
the user function raises any `BaseException`, the wrapper returns 0 and
invokes the handler on that exception exactly when the handler is callable. -/
theorem c1_callback_exceptions_contained :
    (∀ f hc n x nx, (∃ v, (wrap_f f hc n x nx).1 = .ok v) ∧
      ∀ e, f x nx = .exc e →
        wrap_f f hc n x nx = (.ok 0, if hc then some e else none)) ∧
    (∀ gf hc n x nx, (∃ v, (wrap_grad_f gf hc n x nx).1 = .ok v) ∧
      ∀ e, gf x nx = .exc e →
        wrap_grad_f gf hc n x nx = (.ok 0, if hc then some e else none)) ∧
    (∀ g hc n x nx m, (∃ v, (wrap_g g hc n x nx m).1 = .ok v) ∧
      ∀ e, g x nx = .exc e →
        wrap_g g hc n x nx m = (.ok 0, if hc then some e else none)) ∧
    (∀ jg hc n x nx m nj iR jC vals,
      (∃ v, (wrap_jac_g jg hc n x nx m nj iR jC vals).1 = .ok v) ∧
      ∀ e, jg x nx iR jC vals = .exc e →
        wrap_jac_g jg hc n x nx m nj iR jC vals =
          (.ok 0, if hc then some e else none)) ∧
    (∀ h hc n x nx of m mu nm nh iR jC vals,
      (∃ v, (wrap_h h hc n x nx of m mu nm nh iR jC vals).1 = .ok v) ∧
      ∀ e, h x nx of mu nm iR jC vals = .exc e →
        wrap_h h hc n x nx of m mu nm nh iR jC vals =
          (.ok 0, if hc then some e else none)) ∧
    (∀ cb hc info, (∃ v, (wrap_intermediate_cb cb hc info).1 = .ok v) ∧
      ∀ e, cb info = .exc e →
        wrap_intermediate_cb cb hc info =
          (.ok 0, if hc then some e else none)) := by
  refine ⟨?_, ?_, ?_, ?_, ?_, ?_⟩
  · intro f hc n x nx
    refine ⟨?_, ?_⟩
    · cases hres : f x nx with
      | ok v => exact ⟨v, by simp [wrap_f, hres]⟩
      | exc e => exact ⟨0, by simp [wrap_f, hres]⟩
    · intro e he; simp [wrap_f, he]
  · intro gf hc n x nx
    refine ⟨?_, ?_⟩
    · cases hres : gf x nx with
      | ok v => exact ⟨v, by simp [wrap_grad_f, hres]⟩
      | exc e => exact ⟨0, by simp [wrap_grad_f, hres]⟩
    · intro e he; simp [wrap_grad_f, he]
  · intro g hc n x nx m
    refine ⟨?_, ?_⟩
    · cases hres : g x nx with
      | ok v => exact ⟨v, by simp [wrap_g, hres]⟩
      | exc e => exact ⟨0, by simp [wrap_g, hres]⟩
    · intro e he; simp [wrap_g, he]
  · intro jg hc n x nx m nj iR jC vals
    refine ⟨?_, ?_⟩
    · cases hres : jg x nx iR jC vals with
      | ok v => exact ⟨v, by simp [wrap_jac_g, hres]⟩
      | exc e => exact ⟨0, by simp [wrap_jac_g, hres]⟩
    · intro e he; simp [wrap_jac_g, he]
  · intro h hc n x nx of m mu nm nh iR jC vals
    refine ⟨?_, ?_⟩
    · cases hres : h x nx of mu nm iR jC vals with
      | ok v => exact ⟨v, by simp [wrap_h, hres]⟩
      | exc e => exact ⟨0, by simp [wrap_h, hres]⟩
    · intro e he; simp [wrap_h, he]
  · intro cb hc info
    refine ⟨?_, ?_⟩
    · cases hres : cb info with
      | ok v => exact ⟨v, by simp [wrap_intermediate_cb, hres]⟩
      | exc e => exact ⟨0, by simp [wrap_intermediate_cb, hres]⟩
    · intro e he; simp [wrap_intermediate_cb, he]

/-- Witness for C1 at a concrete input: a user objective that raises
`KeyboardInterrupt` is converted by `wrap_f` into a 0 return with the
exception handed to the (callable) handler. -/
theorem c1_witness :
    wrap_f (fun _ _ => PyResult.exc PyExcClass.keyboardInterrupt) true
      1 [0] 1 = (.ok 0, some PyExcClass.keyboardInterrupt) := by
  have h := (c1_callback_exceptions_contained.1
    (fun _ _ => PyResult.exc PyExcClass.keyboardInterrupt) true 1 [0] 1).2
    PyExcClass.keyboardInterrupt rfl
  simpa using h

/-! ## bare_np argument validation (Problem.solve, set_problem_scaling) -/

/-- Python exception objects raised (as opposed to caught) by the binding. -/
inductive Exc where
  | typeError (msg : String)
  | valueError (msg : String)
  | runtimeError (msg : String)
  | attributeError (msg : String)
deriving DecidableEq

/-- `e` is a `TypeError` or a `ValueError`. -/
def Exc.isTypeOrValueError : Exc → Bool
  | .typeError _ => true
  | .valueError _ => true
  | _ => false

/-- The observable properties of a numpy array that `validate_io_array`
inspects: dtype, the A (aligned) and W (writeable) flags, and the shape
(a tuple of dimensions; `[]` is the scalar shape `()`). -/
structure NpArray where
  dtype_double : Bool
  aligned : Bool
  writeable : Bool
  shape : List Nat
deriving DecidableEq

/-- A Python object passed as an io-array argument: `None`, an `ndarray`,
or any other object. -/
inductive PyObj where
  | none
  | ndarray (a : NpArray)
  | other
deriving DecidableEq

/-- `bare_np.validate_io_array(a, shape, name, none_ok)`: returns the
exception to raise, or `none` when the argument is valid.  The checks run
in source order: `None` allowed when `none_ok`, ndarray instance, dtype
double, A and W flags, shape. -/
def validate_io_array (a : PyObj) (shape : List Nat) (name : String)
    (none_ok : Bool) : Option Exc :=
  match a with
  | .none =>
      if none_ok then none
      else some (.typeError (name ++ " must be a numpy ndarray instance"))
  | .other =>
      if none_ok then
        some (.typeError (name ++ " must be a numpy ndarray instance or None"))
      else some (.typeError (name ++ " must be a numpy ndarray instance"))
  | .ndarray arr =>
      if ¬ arr.dtype_double then
        some (.typeError (name ++ " must be an array of doubles"))
      else if ¬ (arr.aligned ∧ arr.writeable) then
        some (.valueError (name ++ " must be an aligned writeable array"))
      else if arr.shape ≠ shape then
        some (.valueError ("invalid shape for " ++ name))
      else none

/-- First non-`none` element, mirroring Python's short-circuiting `or`
chain over the `validate_io_array` results in `Problem.solve`. -/
def first_exc : List (Option Exc) → Option Exc
  | [] => none
  | some e :: _ => some e
  | none :: rest => first_exc rest

/-- The validation chain of `bare_np.Problem.solve`, in source order. -/
def solve_checks (n m : Nat)
    (x g obj_val mult_g mult_x_L mult_x_U : PyObj) : Option Exc :=
  first_exc [validate_io_array x [n] "x" false,
             validate_io_array g [m] "g" true,
             validate_io_array obj_val [] "obj_val" true,
             validate_io_array mult_g [m] "mult_g" true,
             validate_io_array mult_x_L [n] "mult_x_L" true,
             validate_io_array mult_x_U [n] "mult_x_U" true]

/-- `bare_np.Problem.solve`: raises the first validation exception, else
calls the native `IpoptSolve` (whose status is the abstract `ipopt_status`)
and returns its status.  The boolean records whether the native call was
made. -/
def problem_solve (n m : Nat)
    (x g obj_val mult_g mult_x_L mult_x_U : PyObj)
    (ipopt_status : Int) : Except Exc Int × Bool :=
  match solve_checks n m x g obj_val mult_g mult_x_L mult_x_U with
  | some e => (.error e, false)
  | none => (.ok ipopt_status, true)

/-- Every exception produced by `validate_io_array` is a `TypeError` or a
`ValueError`. -/
theorem validate_io_array_exc_kind (a : PyObj) (shape : List Nat)
    (name : String) (none_ok : Bool) (e : Exc)
    (h : validate_io_array a shape name none_ok = some e) :
    e.isTypeOrValueError = true := by
  cases a with
  | none =>
      by_cases hn : none_ok <;>
        simp [validate_io_array, hn] at h <;>
        simp [← h, Exc.isTypeOrValueError]
  | other =>
      by_cases hn : none_ok <;>
        simp [validate_io_array, hn] at h <;>
        simp [← h, Exc.isTypeOrValueError]
  | ndarray arr =>
      simp only [validate_io_array] at h
      split at h
      · simp at h; simp [← h, Exc.isTypeOrValueError]
      · split at h
        · simp at h; simp [← h, Exc.isTypeOrValueError]
        · split at h
          · simp at h; simp [← h, Exc.isTypeOrValueError]
          · simp at h

/-- Helper: every exception surfacing from the solve validation chain is a
`TypeError` or a `ValueError`. -/
theorem solve_checks_exc_kind (n m : Nat)
    (x g obj_val mult_g mult_x_L mult_x_U : PyObj) (e : Exc)
    (h : solve_checks n m x g obj_val mult_g mult_x_L mult_x_U = some e) :
    e.isTypeOrValueError = true := by
  simp only [solve_checks, first_exc] at h
  cases h1 : validate_io_array x [n] "x" false with
  | some e1 =>
      rw [h1] at h; simp [first_exc] at h; subst h
      exact validate_io_array_exc_kind _ _ _ _ _ h1
  | none =>
  rw [h1] at h; simp only [first_exc] at h
  cases h2 : validate_io_array g [m] "g" true with
  | some e2 =>
      rw [h2] at h; simp [first_exc] at h; subst h
      exact validate_io_array_exc_kind _ _ _ _ _ h2
  | none =>
  rw [h2] at h; simp only [first_exc] at h
  cases h3 : validate_io_array obj_val [] "obj_val" true with
  | some e3 =>
      rw [h3] at h; simp [first_exc] at h; subst h
      exact validate_io_array_exc_kind _ _ _ _ _ h3
  | none =>
  rw [h3] at h; simp only [first_exc] at h
  cases h4 : validate_io_array mult_g [m] "mult_g" true with
  | some e4 =>
      rw [h4] at h; simp [first_exc] at h; subst h
      exact validate_io_array_exc_kind _ _ _ _ _ h4
  | none =>
  rw [h4] at h; simp only [first_exc] at h
  cases h5 : validate_io_array mult_x_L [n] "mult_x_L" true with
  | some e5 =>
      rw [h5] at h; simp [first_exc] at h; subst h
      exact validate_io_array_exc_kind _ _ _ _ _ h5
  | none =>
  rw [h5] at h; simp only [first_exc] at h
  cases h6 : validate_io_array mult_x_U [n] "mult_x_U" true with
  | some e6 =>
      rw [h6] at h; simp [first_exc] at h; subst h
      exact validate_io_array_exc_kind _ _ _ _ _ h6
  | none => rw [h6] at h; simp [first_exc] at h

/-- C3: `bare_np.Problem.solve` raises a `TypeError` or `ValueError` and
never invokes the native `IpoptSolve` whenever any argument fails
validation, and calls the native `IpoptSolve` and returns its status when
all arguments validate; an argument validates iff it is `None` (allowed for
every argument except `x`) or an aligned writeable double ndarray of the
required shape (`x`, `mult_x_L`, `mult_x_U` of shape (n,), `g`, `mult_g` of
shape (m,), `obj_val` of shape ()). -/
theorem c3_solve_validates_before_native :
    (∀ n m x g ov mg ml mu st e,
      solve_checks n m x g ov mg ml mu = some e →
        problem_solve n m x g ov mg ml mu st = (.error e, false) ∧
        e.isTypeOrValueError = true) ∧
    (∀ n m x g ov mg ml mu st,
      solve_checks n m x g ov mg ml mu = none →
        problem_solve n m x g ov mg ml mu st = (.ok st, true)) ∧
    (∀ a shape name,
      validate_io_array a shape name true = none ↔
        a = .none ∨ ∃ arr, a = .ndarray arr ∧ arr.dtype_double = true ∧
          arr.aligned = true ∧ arr.writeable = true ∧ arr.shape = shape) ∧
    (∀ a shape name,
      validate_io_array a shape name false = none ↔
        ∃ arr, a = .ndarray arr ∧ arr.dtype_double = true ∧
          arr.aligned = true ∧ arr.writeable = true ∧ arr.shape = shape) := by
  refine ⟨?_, ?_, ?_, ?_⟩
  · intro n m x g ov mg ml mu st e h
    exact ⟨by simp [problem_solve, h],
           solve_checks_exc_kind n m x g ov mg ml mu e h⟩
  · intro n m x g ov mg ml mu st h
    simp [problem_solve, h]
  · intro a shape name
    cases a with
    | none => simp [validate_io_array]
    | other => simp [validate_io_array]
    | ndarray arr =>
        simp only [validate_io_array]
        constructor
        · intro h
          split at h
          · simp at h
          · split at h
            · simp at h
            · split at h
              · simp at h
              · next h1 h2 h3 =>
                  push_neg at h1 h2
                  exact Or.inr ⟨arr, rfl, by simpa using h1, h2.1, h2.2,
                    by simpa using h3⟩
        · rintro (h | ⟨arr2, harr, hd, ha, hw, hs⟩)
          · exact absurd h (by simp)
          · cases harr
            simp [hd, ha, hw, hs]
  · intro a shape name
    cases a with
    | none => simp [validate_io_array]
    | other => simp [validate_io_array]
    | ndarray arr =>
        simp only [validate_io_array]
        constructor
        · intro h
          split at h
          · simp at h
          · split at h
            · simp at h
            · split at h
              · simp at h
              · next h1 h2 h3 =>
                  push_neg at h1 h2
                  exact ⟨arr, rfl, by simpa using h1, h2.1, h2.2,
                    by simpa using h3⟩
        · rintro ⟨arr2, harr, hd, ha, hw, hs⟩
          cases harr
          simp [hd, ha, hw, hs]

/-- Witness for C3 at concrete inputs: with n = m = 1, a valid `x` and all
optional arguments `None`, solve reaches the native call and returns its
status; with `x = None` it raises a `TypeError` and never calls the native
solver. -/
theorem c3_witness :
    problem_solve 1 1 (.ndarray ⟨true, true, true, [1]⟩)
      .none .none .none .none .none 7 = (.ok 7, true) ∧
    problem_solve 1 1 .none .none .none .none .none .none 7 =
      (.error (.typeError "x must be a numpy ndarray instance"), false) := by
  constructor
  · exact c3_solve_validates_before_native.2.1 1 1
      (.ndarray ⟨true, true, true, [1]⟩) .none .none .none .none .none 7
      (by decide)
  · exact (c3_solve_validates_before_native.1 1 1
      .none .none .none .none .none .none 7
      (.typeError "x must be a numpy ndarray instance") (by decide)).1

/-! ## bare_np.Problem.set_problem_scaling (C4) -/

/-- `bare_np.Problem.set_problem_scaling`: after `np.require(..., 'A')` the
scaling arrays keep their shapes; the method raises `ValueError` when
`x_scaling.shape != (n,)`, then — as written in the source — raises
`ValueError` when `g_scaling.shape == (m,)` (the comparison is `==`, not
`!=`), and otherwise calls the native `SetIpoptProblemScaling`, raising
`RuntimeError` when that native call reports failure.  The boolean records
whether the native call was made. -/
def set_problem_scaling (n m : Nat)
    (x_scaling_shape g_scaling_shape : List Nat) (native_ok : Bool) :
    Option Exc × Bool :=
  if x_scaling_shape ≠ [n] then
    (some (.valueError "invalid shape for the x scaling"), false)
  else if g_scaling_shape = [m] then
    (some (.valueError "invalid shape for the g scaling"), false)
  else if native_ok then (none, true)
  else (some (.runtimeError "error setting problem scaling"), true)

/-- C4 (code bug): at n = m = 1 with both scaling arrays of the correct
shape (1,), the source raises `ValueError` for the g scaling and never
reaches the native call, while a wrong-shaped g scaling (here (2,)) is
passed through to the native `SetIpoptProblemScaling` — the opposite of the
claimed validation, because the g-shape comparison in the source is `==`
where `!=` was intended. -/
theorem c4_scaling_shape_check_inverted :
    set_problem_scaling 1 1 [1] [1] true =
      (some (.valueError "invalid shape for the g scaling"), false) ∧
    set_problem_scaling 1 1 [1] [2] true = (none, true) := by
  constructor
  · rfl
  · rfl

/-! ## bare_np.Problem life cycle (C5, C9)

`bare_np.Problem` stores the native handle in `self._problem` and the
wrapped callbacks in `self._callbacks`; `free` calls the native
`FreeIpoptProblem`, deletes `_callbacks` and sets `_problem = None`.  The
state machine below models the fields touched by `__init__`, `free`,
`set_intermediate_callback`, `__enter__` and `__exit__`; every other method
(solve, option setters, scaling) leaves these fields unchanged and is the
`other` operation. -/

/-- Which callback objects the `_callbacks` dict currently references. -/
structure CallbackDict where
  eval_f : Bool
  eval_g : Bool
  eval_grad_f : Bool
  eval_jac_g : Bool
  eval_h : Bool
  intermediate_cb : Bool
deriving DecidableEq

/-- The dict built at the end of `__init__`: the five wrapped callbacks,
no intermediate callback yet. -/
def init_callbacks : CallbackDict := ⟨true, true, true, true, true, false⟩

/-- The fields of a `bare_np.Problem` relevant to its life cycle:
`_problem` (native handle or `None`) and `_callbacks` (deleted by `free`,
hence optional). -/
structure BareProblemState where
  problem : Option Nat
  callbacks : Option CallbackDict
deriving DecidableEq

/-- `bare_np.Problem.__init__`: validates that the bound pairs have equal
sizes, calls the native `CreateIpoptProblem` (success abstracted as
`create_ok`), raises on a null handle, and otherwise stores the handle and
the dict of the five wrapped callbacks. -/
def bare_init (x_L x_U g_L g_U : List R) (create_ok : Bool) :
    Except Exc BareProblemState :=
  if x_U.length ≠ x_L.length then
    .error (.valueError "Inconsistent sizes of x lower and upper bounds")
  else if g_U.length ≠ g_L.length then
    .error (.valueError "Inconsistent sizes of g lower and upper bounds")
  else if create_ok then .ok ⟨some 1, some init_callbacks⟩
  else .error (.runtimeError "Error creating IPOPT problem")

/-- `bare_np.Problem.free`: raises `RuntimeError` when the handle is
already `None`, else calls the native `FreeIpoptProblem`, deletes the
callback dict and clears the handle.  Result: (raised exception, new
state, whether the native free was called). -/
def problem_free (s : BareProblemState) :
    Option Exc × BareProblemState × Bool :=
  match s.problem with
  | none => (some (.runtimeError "Problem invalid or already freed"), s, false)
  | some _ => (none, ⟨none, none⟩, true)

/-- `bare_np.Problem.set_intermediate_callback`: wraps the callback, calls
the native `SetIntermediateCallback` (success abstracted as `native_ok`,
raising `RuntimeError` on failure before storing anything), then stores the
wrapper under the `intermediate_cb` key; storing after `free` would hit the
deleted `_callbacks` attribute. -/
def set_intermediate_callback (s : BareProblemState) (native_ok : Bool) :
    Option Exc × BareProblemState :=
  if ¬ native_ok then
    (some (.runtimeError "error setting problem intermediate callback"), s)
  else
    match s.callbacks with
    | none => (some (.attributeError "_callbacks"), s)
    | some d => (none, ⟨s.problem, some { d with intermediate_cb := true }⟩)

/-- `bare_np.Problem.__enter__`: raises `RuntimeError` on an invalid
(already freed) handle, otherwise returns self unchanged. -/
def enter_ctx (s : BareProblemState) : Option Exc × BareProblemState :=
  match s.problem with
  | none => (some (.runtimeError "Invalid context or reentering context."), s)
  | some _ => (none, s)

/-- `bare_np.Problem.__exit__` just calls `self.free()`. -/
def exit_ctx (s : BareProblemState) : Option Exc × BareProblemState × Bool :=
  problem_free s

/-- Operations a client can perform on a live `bare_np.Problem` object. -/
inductive BareOp where
  | free
  | enter
  | exitc
  | setIntermediate (native_ok : Bool)
  | other
deriving DecidableEq

/-- One operation step: returns the new state, how many native
`FreeIpoptProblem` calls the step made, and whether the step was a
successful `set_intermediate_callback`. -/
def bare_step (s : BareProblemState) (op : BareOp) :
    BareProblemState × Nat × Bool :=
  match op with
  | .free =>
      let r := problem_free s
      (r.2.1, if r.2.2 then 1 else 0, false)
  | .enter => ((enter_ctx s).2, 0, false)
  | .exitc =>
      let r := exit_ctx s
      (r.2.1, if r.2.2 then 1 else 0, false)
  | .setIntermediate ok =>
      let r := set_intermediate_callback s ok
      (r.2, 0, r.1.isNone)
  | .other => (s, 0, false)

/-- Run a sequence of operations, accumulating the native free-call count
and whether any successful `set_intermediate_callback` occurred. -/
def bare_run (s : BareProblemState) : List BareOp → BareProblemState × Nat × Bool
  | [] => (s, 0, false)
  | op :: rest =>
      let st := bare_step s op
      let r := bare_run st.1 rest
      (r.1, st.2.1 + r.2.1, st.2.2 || r.2.2)

/-- Helper: a run can only call the native free while the handle is live,
and at most once. -/
theorem bare_run_free_le (ops : List BareOp) :
    ∀ s : BareProblemState,
      (bare_run s ops).2.1 ≤ (if s.problem.isSome then 1 else 0) := by
  induction ops with
  | nil => intro s; simp [bare_run]
  | cons op rest ih =>
      intro s
      cases op with
      | free =>
          cases hp : s.problem with
          | none =>
              have h0 : (bare_run s rest).2.1 = 0 := by
                simpa [hp] using ih s
              simp [bare_run, bare_step, problem_free, hp, h0]
          | some h =>
              have := ih (⟨none, none⟩ : BareProblemState)
              simp [bare_run, bare_step, problem_free, hp]
              simpa using this
      | enter =>
          cases hp : s.problem with
          | none =>
              have h0 : (bare_run s rest).2.1 = 0 := by
                simpa [hp] using ih s
              simp [bare_run, bare_step, enter_ctx, hp, h0]
          | some h =>
              simpa [bare_run, bare_step, enter_ctx, hp] using
                le_trans (ih s) (by simp [hp])
      | exitc =>
          cases hp : s.problem with
          | none =>
              have h0 : (bare_run s rest).2.1 = 0 := by
                simpa [hp] using ih s
              simp [bare_run, bare_step, exit_ctx, problem_free, hp, h0]
          | some h =>
              have := ih (⟨none, none⟩ : BareProblemState)
              simp [bare_run, bare_step, exit_ctx, problem_free, hp]
              simpa using this
      | setIntermediate ok =>
          by_cases hok : ok
          · cases hc : s.callbacks with
            | none =>
                simpa [bare_run, bare_step, set_intermediate_callback,
                       hok, hc] using le_trans (ih s) (by rfl)
            | some d =>
                have := ih ⟨s.problem, some { d with intermediate_cb := true }⟩
                simp [bare_run, bare_step, set_intermediate_callback, hok, hc]
                simpa using this
          · simpa [bare_run, bare_step, set_intermediate_callback, hok] using
              le_trans (ih s) (by rfl)
      | other =>
          simpa [bare_run, bare_step] using le_trans (ih s) (by rfl)

/-- Inversion of a successful `__init__`: the stored state is the live
handle plus the dict of the five wrapped callbacks. -/
theorem bare_init_ok {x_L x_U g_L g_U : List R} {ok : Bool}
    {s : BareProblemState} (h : bare_init x_L x_U g_L g_U ok = .ok s) :
    s = ⟨some 1, some init_callbacks⟩ := by
  simp only [bare_init] at h
  split at h
  · cases h
  · split at h
    · cases h
    · split at h
      · cases h; rfl
      · cases h

/-- C5: the native handle is released exactly once through the wrapper:
`free` on a live problem calls the native `FreeIpoptProblem`, drops the
callback dict and clears the handle; `free` on a freed problem raises
`RuntimeError` without a native call; `__exit__` is exactly `free`;
`__enter__` on a freed problem raises `RuntimeError`; and along any
operation sequence starting from a successfully constructed problem the
native free is called at most once. -/
theorem c5_handle_freed_exactly_once :
    (∀ (s : BareProblemState) (h : Nat), s.problem = some h →
      problem_free s = (none, ⟨none, none⟩, true)) ∧
    (∀ s : BareProblemState, s.problem = none →
      problem_free s =
        (some (.runtimeError "Problem invalid or already freed"), s, false)) ∧
    (∀ s : BareProblemState, exit_ctx s = problem_free s) ∧
    (∀ s : BareProblemState, s.problem = none →
      enter_ctx s =
        (some (.runtimeError "Invalid context or reentering context."), s)) ∧
    (∀ x_L x_U g_L g_U ok s ops, bare_init x_L x_U g_L g_U ok = .ok s →
      (bare_run s ops).2.1 ≤ 1) := by
  refine ⟨?_, ?_, ?_, ?_, ?_⟩
  · intro s h hp; simp [problem_free, hp]
  · intro s hp; simp [problem_free, hp]
  · intro s; rfl
  · intro s hp; simp [enter_ctx, hp]
  · intro x_L x_U g_L g_U ok s ops h
    have hs := bare_init_ok h
    subst hs
    simpa using bare_run_free_le ops ⟨some 1, some init_callbacks⟩

/-- Witness for C5 at concrete states: freeing a live problem makes the one
native free call; freeing again raises without a native call; and a run
that calls free twice still frees natively at most once. -/
theorem c5_witness :
    problem_free ⟨some 1, some init_callbacks⟩ = (none, ⟨none, none⟩, true) ∧
    problem_free ⟨none, none⟩ =
      (some (.runtimeError "Problem invalid or already freed"),
        ⟨none, none⟩, false) ∧
    (bare_run ⟨some 1, some init_callbacks⟩ [BareOp.free, BareOp.free]).2.1
      ≤ 1 := by
  refine ⟨c5_handle_freed_exactly_once.1 _ 1 rfl,
          c5_handle_freed_exactly_once.2.1 _ rfl,
          c5_handle_freed_exactly_once.2.2.2.2 [0] [0] [] [] true _
            [BareOp.free, BareOp.free] rfl⟩

/-- The five wrapped callbacks are all referenced by the dict. -/
def five_held (d : CallbackDict) : Prop :=
  d.eval_f = true ∧ d.eval_g = true ∧ d.eval_grad_f = true ∧
  d.eval_jac_g = true ∧ d.eval_h = true

/-- Helper for C9: as long as no (successful) free has happened, the
callback dict survives every operation, keeps whatever it referenced, and
references the intermediate wrapper exactly when it did before or a
successful `set_intermediate_callback` occurred. -/
theorem bare_run_callbacks_invariant (ops : List BareOp) :
    ∀ (s : BareProblemState) (d : CallbackDict),
      s.problem.isSome → s.callbacks = some d →
      (bare_run s ops).2.1 = 0 →
      ∃ d2, (bare_run s ops).1.callbacks = some d2 ∧
        (five_held d → five_held d2) ∧
        d2.intermediate_cb = (d.intermediate_cb || (bare_run s ops).2.2) := by
  induction ops with
  | nil =>
      intro s d hp hc h0
      exact ⟨d, by simpa [bare_run] using hc, fun h => h, by simp [bare_run]⟩
  | cons op rest ih =>
      intro s d hp hc h0
      cases op with
      | free =>
          obtain ⟨h, hph⟩ := Option.isSome_iff_exists.mp hp
          simp [bare_run, bare_step, problem_free, hph] at h0
      | exitc =>
          obtain ⟨h, hph⟩ := Option.isSome_iff_exists.mp hp
          simp [bare_run, bare_step, exit_ctx, problem_free, hph] at h0
      | enter =>
          obtain ⟨h, hph⟩ := Option.isSome_iff_exists.mp hp
          have hrec := ih s d hp hc
            (by simpa [bare_run, bare_step, enter_ctx, hph] using h0)
          simpa [bare_run, bare_step, enter_ctx, hph] using hrec
      | setIntermediate ok =>
          by_cases hok : ok
          · have hrec := ih
              ⟨s.problem, some { d with intermediate_cb := true }⟩
              { d with intermediate_cb := true } (by simpa using hp) rfl
              (by simpa [bare_run, bare_step, set_intermediate_callback,
                         hok, hc] using h0)
            obtain ⟨d2, hd2, hfive, hint⟩ := hrec
            refine ⟨d2, ?_, ?_, ?_⟩
            · simpa [bare_run, bare_step, set_intermediate_callback,
                     hok, hc] using hd2
            · intro hf
              exact hfive ⟨hf.1, hf.2.1, hf.2.2.1, hf.2.2.2.1, hf.2.2.2.2⟩
            · simp only [bare_run, bare_step, set_intermediate_callback,
                         hok, hc]
              simpa using hint
          · have hrec := ih s d hp hc
              (by simpa [bare_run, bare_step, set_intermediate_callback,
                         hok] using h0)
            simpa [bare_run, bare_step, set_intermediate_callback, hok]
              using hrec
      | other =>
          have hrec := ih s d hp hc
            (by simpa [bare_run, bare_step] using h0)
          simpa [bare_run, bare_step] using hrec

/-- C9: from the end of a successful `__init__` until `free` is called, the
`_callbacks` dict keeps referencing all five wrapped callbacks, and also the
intermediate wrapper once a successful `set_intermediate_callback` has
occurred. -/
theorem c9_callbacks_kept_alive :
    ∀ x_L x_U g_L g_U ok s ops, bare_init x_L x_U g_L g_U ok = .ok s →
      (bare_run s ops).2.1 = 0 →
      ∃ d, (bare_run s ops).1.callbacks = some d ∧
        d.eval_f = true ∧ d.eval_g = true ∧ d.eval_grad_f = true ∧
        d.eval_jac_g = true ∧ d.eval_h = true ∧
        ((bare_run s ops).2.2 = true → d.intermediate_cb = true) := by
  intro x_L x_U g_L g_U ok s ops h h0
  have hs := bare_init_ok h
  subst hs
  obtain ⟨d, hd, hfive, hint⟩ := bare_run_callbacks_invariant ops
    ⟨some 1, some init_callbacks⟩ init_callbacks rfl rfl h0
  have hf := hfive ⟨rfl, rfl, rfl, rfl, rfl⟩
  refine ⟨d, hd, hf.1, hf.2.1, hf.2.2.1, hf.2.2.2.1, hf.2.2.2.2, ?_⟩
  intro hflag
  rw [hflag] at hint
  simpa [init_callbacks] using hint

/-- Witness for C9: after construction followed by a successful
`set_intermediate_callback` and a solve, the dict holds all six wrappers. -/
theorem c9_witness :
    ∃ d, (bare_run ⟨some 1, some init_callbacks⟩
        [BareOp.setIntermediate true, BareOp.other]).1.callbacks = some d ∧
      d.eval_f = true ∧ d.eval_g = true ∧ d.eval_grad_f = true ∧
      d.eval_jac_g = true ∧ d.eval_h = true ∧
      ((bare_run ⟨some 1, some init_callbacks⟩
          [BareOp.setIntermediate true, BareOp.other]).2.2 = true →
        d.intermediate_cb = true) :=
  c9_callbacks_kept_alive [0] [0] [] [] true _
    [BareOp.setIntermediate true, BareOp.other] rfl (by decide)

/-! ## ez exception handler and intermediate callback (C8, C10)

`ez.Problem._callback_exception_handler` silently swallows
`ez.InvalidPoint`, records `KeyboardInterrupt` in the `_abort` flag (the
attribute is absent until then, so `getattr(self, '_abort', False)` reads
`false`), and forwards everything else to `bare_np.default_handler`, which
prints the traceback. -/

/-- `bare_np.default_handler`: prints the traceback of the exception.  The
observable effect is modelled as the boolean "a traceback was printed". -/
def default_handler (e : PyExcClass) : Bool := true

/-- `ez.Problem._callback_exception_handler`: given the current `_abort`
flag and the caught exception, returns the new `_abort` flag and whether a
traceback was printed. -/
def callback_exception_handler (abort : Bool) (e : PyExcClass) :
    Bool × Bool :=
  match e with
  | .invalidPoint => (abort, false)
  | .keyboardInterrupt => (true, false)
  | .otherException => (abort, default_handler e)

/-- `ez.Problem._intermediate_callback`: 0 when the `_abort` flag is set,
1 otherwise. -/
def intermediate_callback (abort : Bool) : Int := if abort then 0 else 1

/-- The events relevant to the abort protocol during a solve: a user
callback raising an exception (routed to the ez handler by the bare_np
wrappers), and the native library invoking the intermediate callback. -/
inductive CbEvent where
  | exc (e : PyExcClass)
  | intermediate
deriving DecidableEq

/-- Run of the ez layer over a sequence of callback events, collecting the
value returned by each intermediate-callback invocation. -/
def run_intermediate (abort : Bool) : List CbEvent → List Int
  | [] => []
  | .exc e :: rest =>
      run_intermediate (callback_exception_handler abort e).1 rest
  | .intermediate :: rest =>
      intermediate_callback abort :: run_intermediate abort rest

/-- Modelled from the claim wording, for comparison with the code: each
intermediate invocation yields 1 until a `KeyboardInterrupt` has been
caught, and 0 from then on. -/
def spec_intermediate_results (seen_ki : Bool) : List CbEvent → List Int
  | [] => []
  | .exc e :: rest =>
      spec_intermediate_results
        (seen_ki || decide (e = PyExcClass.keyboardInterrupt)) rest
  | .intermediate :: rest =>
      (if seen_ki then 0 else 1) :: spec_intermediate_results seen_ki rest

/-- Helper: after handling `e`, the abort flag is set iff it already was or
`e` is a `KeyboardInterrupt`. -/
theorem handler_abort_iff (abort : Bool) (e : PyExcClass) :
    (callback_exception_handler abort e).1 =
      (abort || decide (e = PyExcClass.keyboardInterrupt)) := by
  cases e <;> simp [callback_exception_handler]

/-- Helper: the run agrees with the claimed behaviour from any starting
flag. -/
theorem run_intermediate_eq_spec (evs : List CbEvent) :
    ∀ abort : Bool,
      run_intermediate abort evs = spec_intermediate_results abort evs := by
  induction evs with
  | nil => intro abort; rfl
  | cons ev rest ih =>
      intro abort
      cases ev with
      | exc e =>
          simp only [run_intermediate, spec_intermediate_results,
                     handler_abort_iff]
          exact ih _
      | intermediate =>
          simp only [run_intermediate, spec_intermediate_results,
                     intermediate_callback]
          rw [ih abort]

/-- C8: starting from a fresh solve (no `_abort` attribute, read as false),
every intermediate-callback invocation returns 1 until some user callback
raises `KeyboardInterrupt`; once the handler has caught a
`KeyboardInterrupt`, every subsequent invocation returns 0; the callback
never returns 0 before such an interrupt. -/
theorem c8_intermediate_abort_protocol (evs : List CbEvent) :
    run_intermediate false evs = spec_intermediate_results false evs :=
  run_intermediate_eq_spec evs false

/-- In the ez layer the bare_np wrappers are built with
`handler=self._callback_exception_handler` (a bound method, hence
callable).  Given the wrapper outcome (return value plus the exception the
wrapper handed to the handler, if any) and the current `_abort` flag, this
yields the returned value, the new `_abort` flag, and whether a traceback
was printed. -/
def ez_handle_wrapped (abort : Bool)
    (w : PyResult Int × Option PyExcClass) : PyResult Int × Bool × Bool :=
  match w.2 with
  | none => (w.1, abort, false)
  | some e =>
      (w.1, (callback_exception_handler abort e).1,
        (callback_exception_handler abort e).2)

/-- C10: when a user callback raises under the ez layer, the bare_np
wrapper still returns the failure status 0 to the native library, and the
ez handler suppresses `ez.InvalidPoint` silently (no traceback, `_abort`
unchanged), records `KeyboardInterrupt` without printing, and forwards any
other exception to `bare_np.default_handler`, which prints the traceback. -/
theorem c10_invalid_point_suppressed :
    ∀ (abort : Bool) (f : List R → Int → PyResult Int) (n : Nat)
      (x : List R) (nx : Int) (e : PyExcClass),
      f x nx = .exc e →
      ez_handle_wrapped abort (wrap_f f true n x nx) =
        (.ok 0,
         abort || decide (e = PyExcClass.keyboardInterrupt),
         decide (e = PyExcClass.otherException)) := by
  intro abort f n x nx e he
  cases e <;>
    simp [ez_handle_wrapped, wrap_f, he, callback_exception_handler,
          default_handler]

/-- Witness for C10: an `InvalidPoint` raised by the objective is swallowed
silently — the wrapped callback returns 0, the abort flag stays clear and
no traceback is printed — while a generic exception is printed. -/
theorem c10_witness :
    ez_handle_wrapped false
        (wrap_f (fun _ _ => PyResult.exc PyExcClass.invalidPoint) true
          1 [0] 1) = (.ok 0, false, false) ∧
    ez_handle_wrapped false
        (wrap_f (fun _ _ => PyResult.exc PyExcClass.otherException) true
          1 [0] 1) = (.ok 0, false, true) := by
  constructor
  · have h := c10_invalid_point_suppressed false
      (fun _ _ => PyResult.exc PyExcClass.invalidPoint) 1 [0] 1
      PyExcClass.invalidPoint rfl
    simpa using h
  · have h := c10_invalid_point_suppressed false
      (fun _ _ => PyResult.exc PyExcClass.otherException) 1 [0] 1
      PyExcClass.otherException rfl
    simpa using h

/-! ## ez sparse callbacks (C2)

`ez.jac_callback(jac)` receives a pair `(jac_ind, jac_val)`; `jac_ind` is
either the pair of index arrays or a callable producing it, and `jac_val`
maps the decision vector to the nonzero values.  `ez.hess_callback` is
analogous, with `hess_val(x, obj_factor, mult)`.  `accepts_output`
inspects the parameter list of the value function. -/

/-- `ez.accepts_output(f)`, applied to the parameter-name list of `f`'s
signature: returns `False` when there is no `out` parameter or it is the
first parameter; otherwise the source evaluates `inspect.Parameters`,
an attribute that does not exist, so an `AttributeError` is raised. -/
def accepts_output (params : List String) : PyResult Bool :=
  if "out" ∈ params then
    if params.indexOf "out" = 0 then .ok false
    else .exc .otherException
  else .ok false

/-- numpy slice assignment `buf[...] = v`: keeps the buffer length,
broadcasting a length-1 source; any other length mismatch raises. -/
def np_assign {α : Type} [Inhabited α] (buf : List α) (v : List α) :
    PyResult (List α) :=
  if v.length = buf.length then .ok v
  else if v.length = 1 then .ok (List.replicate buf.length (v.headD default))
  else .exc .otherException

/-- The user-supplied sparsity-index source: the pair of index arrays, or a
callable returning it (`jac_ind() if callable(jac_ind) else jac_ind`). -/
inductive IndSource where
  | arrays (ij : List Int × List Int)
  | fn (f : Unit → List Int × List Int)

/-- Resolve the index source, calling it when it is callable. -/
def IndSource.resolve : IndSource → List Int × List Int
  | .arrays ij => ij
  | .fn f => f ()

/-- The `jac` argument of `ez.jac_callback`: the index source, the
parameter names of the value function's signature (inspected by
`accepts_output`), and the value function's output at a given `x` (which is
also what a call with `out=` writes into the buffer). -/
structure JacFn where
  ind : IndSource
  val_params : List String
  val : List R → List R

/-- The wrapper produced by `ez.jac_callback`: result is the final
`(iRow, jCol, values)` buffers and the returned status, or a raised
exception. -/
def jac_callback (jac : JacFn) (x : List R) (new_x : Int)
    (iRow jCol : Option (List Int)) (values : Option (List R)) :
    PyResult (Option (List Int) × Option (List Int) × Option (List R) × Int) :=
  match values with
  | some v =>
      if v.length = 0 then .ok (iRow, jCol, values, 1)
      else
        match accepts_output jac.val_params with
        | .exc e => .exc e
        | .ok true => .ok (iRow, jCol, some (jac.val x), 1)
        | .ok false =>
            match np_assign v (jac.val x) with
            | .exc e => .exc e
            | .ok v2 => .ok (iRow, jCol, some v2, 1)
  | none =>
      match iRow, jCol with
      | some i, some j =>
          if i.length = 0 ∨ j.length = 0 then .ok (iRow, jCol, none, 1)
          else
            match np_assign i jac.ind.resolve.1 with
            | .exc e => .exc e
            | .ok i2 =>
                match np_assign j jac.ind.resolve.2 with
                | .exc e => .exc e
                | .ok j2 => .ok (some i2, some j2, none, 1)
      | _, _ => .ok (iRow, jCol, none, 1)

/-- The `hess` argument of `ez.hess_callback` when it is not `None`: index
source, value-function parameter names, the value at
`(x, obj_factor, mult)`, and the value written by an `out=` call (which
passes only `x`). -/
structure HessFn where
  ind : IndSource
  val_params : List String
  val : List R → R → List R → List R
  val_out : List R → List R

/-- The wrapper produced by `ez.hess_callback` for a non-`None` `hess`. -/
def hess_callback (hess : HessFn) (x : List R) (new_x : Int) (obj_factor : R)
    (mult : List R) (new_mult : Int) (iRow jCol : Option (List Int))
    (values : Option (List R)) :
    PyResult (Option (List Int) × Option (List Int) × Option (List R) × Int) :=
  match values with
  | some v =>
      if v.length = 0 then .ok (iRow, jCol, values, 1)
      else
        match accepts_output hess.val_params with
        | .exc e => .exc e
        | .ok true => .ok (iRow, jCol, some (hess.val_out x), 1)
        | .ok false =>
            match np_assign v (hess.val x obj_factor mult) with
            | .exc e => .exc e
            | .ok v2 => .ok (iRow, jCol, some v2, 1)
  | none =>
      match iRow, jCol with
      | some i, some j =>
          if i.length = 0 ∨ j.length = 0 then .ok (iRow, jCol, none, 1)
          else
            match np_assign i hess.ind.resolve.1 with
            | .exc e => .exc e
            | .ok i2 =>
                match np_assign j hess.ind.resolve.2 with
                | .exc e => .exc e
                | .ok j2 => .ok (some i2, some j2, none, 1)
      | _, _ => .ok (iRow, jCol, none, 1)

/-- `accepts_output` never returns `True` in the source as written: the
line meant to classify an `out` parameter evaluates `inspect.Parameters`,
which does not exist. -/
theorem accepts_output_never_true (params : List String) :
    accepts_output params ≠ .ok true := by
  simp only [accepts_output]
  split
  · split
    · simp
    · simp
  · simp

/-- The structure-phase half of claim C2 exactly as stated: on every
invocation with a null values buffer, the wrapper fills `iRow` and `jCol`
with the user-supplied sparsity pattern and returns 1. -/
def c2_structure_phase_as_stated : Prop :=
  ∀ (jac : JacFn) (x : List R) (new_x : Int)
    (iRow jCol : Option (List Int)),
    jac_callback jac x new_x iRow jCol none =
      .ok (some jac.ind.resolve.1, some jac.ind.resolve.2, none, 1)

/-- C2 counterexample: the claim as stated fails at the concrete invocation
with null `values` and null index buffers — the wrapper returns 1 without
writing the pattern anywhere, so the index buffers are not filled. -/
theorem c2_counterexample : ¬ c2_structure_phase_as_stated := by
  intro h
  have hc := h ⟨.arrays ([0], [0]), ["x"], fun _ => [0]⟩ [0] 1 none none
  simp [jac_callback, IndSource.resolve] at hc

/-- C2 (amended): the sparse callbacks follow the two-phase convention on
well-formed queries.  Value phase: when the values buffer is non-null and
non-empty, the value function's signature does not make `accepts_output`
raise (no `out` parameter beyond position 0) and the value function's
output matches the buffer length, the wrapper fills the buffer with the
value function's output at the given `x` (for the Hessian, at
`(x, obj_factor, mult)`) and returns 1 without writing the index buffers.
Structure phase: when the values buffer is null and both index buffers are
non-null and non-empty and the pattern arrays match their lengths, the
wrapper fills `iRow` and `jCol` with the user-supplied pattern (calling the
index source if it is callable) and returns 1.  When the values buffer is
null and either index buffer is null or empty, the wrapper returns 1
without writing anything. -/
theorem c2_two_phase_amended :
    (∀ (jac : JacFn) x nx iRow jCol v,
      accepts_output jac.val_params = .ok false →
      v ≠ [] → (jac.val x).length = v.length →
      jac_callback jac x nx iRow jCol (some v) =
        .ok (iRow, jCol, some (jac.val x), 1)) ∧
    (∀ (jac : JacFn) x nx i j,
      i ≠ [] → j ≠ [] →
      jac.ind.resolve.1.length = i.length →
      jac.ind.resolve.2.length = j.length →
      jac_callback jac x nx (some i) (some j) none =
        .ok (some jac.ind.resolve.1, some jac.ind.resolve.2, none, 1)) ∧
    (∀ (jac : JacFn) x nx iRow jCol,
      iRow = none ∨ jCol = none ∨ iRow = some [] ∨ jCol = some [] →
      jac_callback jac x nx iRow jCol none = .ok (iRow, jCol, none, 1)) ∧
    (∀ (hess : HessFn) x nx of mult nm iRow jCol v,
      accepts_output hess.val_params = .ok false →
      v ≠ [] → (hess.val x of mult).length = v.length →
      hess_callback hess x nx of mult nm iRow jCol (some v) =
        .ok (iRow, jCol, some (hess.val x of mult), 1)) ∧
    (∀ (hess : HessFn) x nx of mult nm i j,
      i ≠ [] → j ≠ [] →
      hess.ind.resolve.1.length = i.length →
      hess.ind.resolve.2.length = j.length →
      hess_callback hess x nx of mult nm (some i) (some j) none =
        .ok (some hess.ind.resolve.1, some hess.ind.resolve.2, none, 1)) ∧
    (∀ (hess : HessFn) x nx of mult nm iRow jCol,
      iRow = none ∨ jCol = none ∨ iRow = some [] ∨ jCol = some [] →
      hess_callback hess x nx of mult nm iRow jCol none =
        .ok (iRow, jCol, none, 1)) := by
  refine ⟨?_, ?_, ?_, ?_, ?_, ?_⟩
  · intro jac x nx iRow jCol v hao hv hlen
    have hv0 : v.length ≠ 0 := by simpa [List.length_eq_zero] using hv
    simp [jac_callback, hv0, hao, np_assign, hlen]
  · intro jac x nx i j hi hj hli hlj
    have hi0 : i.length ≠ 0 := by simpa [List.length_eq_zero] using hi
    have hj0 : j.length ≠ 0 := by simpa [List.length_eq_zero] using hj
    simp [jac_callback, hi0, hj0, np_assign, hli, hlj]
  · intro jac x nx iRow jCol hdeg
    rcases hdeg with h | h | h | h
    · subst h; cases jCol <;> simp [jac_callback]
    · subst h; cases iRow <;> simp [jac_callback]
    · subst h; cases jCol <;> simp [jac_callback]
    · subst h; cases iRow <;> simp [jac_callback]
  · intro hess x nx of mult nm iRow jCol v hao hv hlen
    have hv0 : v.length ≠ 0 := by simpa [List.length_eq_zero] using hv
    simp [hess_callback, hv0, hao, np_assign, hlen]
  · intro hess x nx of mult nm i j hi hj hli hlj
    have hi0 : i.length ≠ 0 := by simpa [List.length_eq_zero] using hi
    have hj0 : j.length ≠ 0 := by simpa [List.length_eq_zero] using hj
    simp [hess_callback, hi0, hj0, np_assign, hli, hlj]
  · intro hess x nx of mult nm iRow jCol hdeg
    rcases hdeg with h | h | h | h
    · subst h; cases jCol <;> simp [hess_callback]
    · subst h; cases iRow <;> simp [hess_callback]
    · subst h; cases jCol <;> simp [hess_callback]
    · subst h; cases iRow <;> simp [hess_callback]

/-- Witness for C2 (amended) at concrete inputs: a value query fills the
values buffer and leaves the index buffers alone; a structure query with a
callable index source fills the index buffers. -/
theorem c2_witness :
    jac_callback ⟨.arrays ([0], [1]), ["x"], fun _ => [5]⟩ [0] 1
        none none (some [9]) = .ok (none, none, some [5], 1) ∧
    jac_callback ⟨.fn (fun _ => ([0], [1])), ["x"], fun _ => [5]⟩ [0] 1
        (some [3]) (some [4]) none = .ok (some [0], some [1], none, 1) := by
  constructor
  · have h := c2_two_phase_amended.1
      ⟨.arrays ([0], [1]), ["x"], fun _ => [5]⟩ [0] 1 none none [9]
      (by decide) (by decide) (by decide)
    simpa using h
  · have h := c2_two_phase_amended.2.1
      ⟨.fn (fun _ => ([0], [1])), ["x"], fun _ => [5]⟩ [0] 1 [3] [4]
      (by decide) (by decide) (by rfl) (by rfl)
    simpa [IndSource.resolve] using h

/-! ## ez.Problem.solve buffer management (C6, C7)

`ez.Problem.solve` allocates numpy buffers and hands their memory to the
native `IpoptSolve`, which mutates them in place.  A small heap models
allocation identity: arrays live at increasing ids, allocation appends,
and the abstract native solver may rewrite exactly the buffers whose ids
it is handed.  Every array placed in this heap by the ez layer is a fresh,
aligned, writeable, C-contiguous double array, so of the
`validate_io_array` checks only the shape check remains; `obj_val` of
shape () is modelled as a single cell. -/

/-- Identity-tracking heap of numpy arrays. -/
structure Heap where
  arrays : List (List R)
deriving DecidableEq

/-- An array's identity (allocation index). -/
abbrev ArrId := Nat

/-- Contents of the array with id `i`. -/
def Heap.read (h : Heap) (i : ArrId) : List R := h.arrays[i]?.getD []

/-- Allocate a new array; returns the heap and the new id. -/
def Heap.alloc (h : Heap) (v : List R) : Heap × ArrId :=
  (⟨h.arrays ++ [v]⟩, h.arrays.length)

/-- Number of arrays allocated so far. -/
def Heap.size (h : Heap) : Nat := h.arrays.length

theorem Heap.size_alloc (h : Heap) (v : List R) :
    (h.alloc v).1.size = h.size + 1 := by
  simp [Heap.alloc, Heap.size]

theorem Heap.alloc_id (h : Heap) (v : List R) : (h.alloc v).2 = h.size := rfl

theorem Heap.read_alloc_self (h : Heap) (v : List R) :
    (h.alloc v).1.read h.size = v := by
  simp [Heap.alloc, Heap.read, Heap.size, List.getElem?_concat_length]

theorem Heap.read_alloc_lt (h : Heap) (v : List R) (i : ArrId)
    (hi : i < h.size) : (h.alloc v).1.read i = h.read i := by
  have hi2 : i < h.arrays.length := hi
  simp [Heap.alloc, Heap.read, List.getElem?_append_left hi2]

/-- `a if o is None else o`: allocate the default array when the optional
argument was not supplied, otherwise keep the caller's array. -/
def alloc_opt (h : Heap) (o : Option ArrId) (v : List R) : Heap × ArrId :=
  match o with
  | none => h.alloc v
  | some i => (h, i)

theorem alloc_opt_size_le (h : Heap) (o : Option ArrId) (v : List R) :
    h.size ≤ (alloc_opt h o v).1.size := by
  cases o with
  | none => simp [alloc_opt, Heap.size_alloc]
  | some i => simp [alloc_opt]

theorem alloc_opt_read_lt (h : Heap) (o : Option ArrId) (v : List R)
    (i : ArrId) (hi : i < h.size) :
    (alloc_opt h o v).1.read i = h.read i := by
  cases o with
  | none => exact Heap.read_alloc_lt h v i hi
  | some j => rfl

/-- The abstract native `IpoptSolve`: given the heap and the ids of the six
buffers whose data pointers it receives, it returns the mutated heap and
the solver status. -/
def NativeSolve : Type := Heap → List ArrId → Heap × Int

/-- FFI contract of the native solver: it writes only through the pointers
it was handed. -/
def frame_ok (ns : NativeSolve) : Prop :=
  ∀ h ids i, i ∉ ids → (ns h ids).1.read i = h.read i

/-- `np.broadcast_to(x, (n,))` for a one-dimensional or scalar source:
identity at length n, replication of a single element, error otherwise. -/
def broadcast_to (v : List R) (n : Nat) : Option (List R) :=
  if v.length = n then some v
  else if v.length = 1 then some (List.replicate n (v.headD 0))
  else none

/-- `bare_np.Problem.solve` at the heap level: the shape validation of
`validate_io_array` on the actual buffers, then the native call. -/
def bare_solve_buffers (ns : NativeSolve) (n m : Nat) (h : Heap)
    (x g obj_val mult_g mult_x_L mult_x_U : ArrId) :
    Except Exc (Heap × Int) :=
  if (h.read x).length ≠ n then .error (.valueError "invalid shape for x")
  else if (h.read g).length ≠ m then .error (.valueError "invalid shape for g")
  else if (h.read obj_val).length ≠ 1 then
    .error (.valueError "invalid shape for obj_val")
  else if (h.read mult_g).length ≠ m then
    .error (.valueError "invalid shape for mult_g")
  else if (h.read mult_x_L).length ≠ n then
    .error (.valueError "invalid shape for mult_x_L")
  else if (h.read mult_x_U).length ≠ n then
    .error (.valueError "invalid shape for mult_x_U")
  else .ok (ns h [x, g, obj_val, mult_g, mult_x_L, mult_x_U])

/-- Lines 55-57 of ez.py: with `copy=True`, broadcast the caller's `x` to
shape (n,) and copy it into a newly allocated contiguous double array;
with `copy=False` pass the caller's array through. -/
def ez_prepare_x (h : Heap) (x : ArrId) (n : Nat) (copy : Bool) :
    Except Exc (Heap × ArrId) :=
  if copy then
    match broadcast_to (h.read x) n with
    | none => .error (.valueError "could not broadcast input array")
    | some bx => .ok (h.alloc bx)
  else .ok (h, x)

/-- Observable effects of `ez.Problem.solve` in order: the option call and
the native solve with the handed buffer ids. -/
inductive Ev where
  | addStrOption (key val : String)
  | nativeSolve (ids : List ArrId)
deriving DecidableEq

/-- The result of a successful `ez.Problem.solve`: the event trace, the
returned solution array id, the arrays stored in the returned `info` dict,
the heap as handed to the native solver, and the final heap. -/
structure EzSolveOut where
  events : List Ev
  x_out : ArrId
  info_g : ArrId
  info_obj_val : ArrId
  info_mult_g : ArrId
  info_mult_x_L : ArrId
  info_mult_x_U : ArrId
  info_status : Int
  heap_before_solve : Heap
  heap : Heap
deriving DecidableEq

/-- `ez.Problem.solve`: sets `warm_start_init_point` from whether any
multiplier was supplied (raising if the option call fails, abstracted as
`str_option_ok`), zero-fills the missing multipliers, allocates `g` and
`obj_val` (contents of `np.empty` are the unspecified `junk_g` and
`junk_obj`), copies `x` when `copy` is set, and performs the validated
native solve. -/
def ez_solve (ns : NativeSolve) (n m : Nat) (str_option_ok : Bool)
    (junk_g : List R) (junk_obj : R) (h0 : Heap) (x : ArrId)
    (mult_g mult_x_L mult_x_U : Option ArrId) (copy : Bool) :
    Except Exc EzSolveOut :=
  let warm := if mult_g.isSome || mult_x_L.isSome || mult_x_U.isSome
              then "yes" else "no"
  if str_option_ok = false then .error (.valueError "invalid option or value")
  else
    let p1 := alloc_opt h0 mult_g (List.replicate m 0)
    let p2 := alloc_opt p1.1 mult_x_L (List.replicate n 0)
    let p3 := alloc_opt p2.1 mult_x_U (List.replicate n 0)
    let p4 := p3.1.alloc junk_g
    let p5 := p4.1.alloc [junk_obj]
    match ez_prepare_x p5.1 x n copy with
    | .error e => .error e
    | .ok hx =>
        match bare_solve_buffers ns n m hx.1 hx.2 p4.2 p5.2 p1.2 p2.2 p3.2 with
        | .error e => .error e
        | .ok hs =>
            .ok ⟨[.addStrOption "warm_start_init_point" warm,
                  .nativeSolve [hx.2, p4.2, p5.2, p1.2, p2.2, p3.2]],
                 hx.2, p4.2, p5.2, p1.2, p2.2, p3.2, hs.2, hx.1, hs.1⟩

/-- Inversion of a successful heap-level solve: the result is the native
call on the handed buffers. -/
theorem bare_solve_buffers_ok {ns : NativeSolve} {n m : Nat} {h : Heap}
    {x g obj_val mult_g mult_x_L mult_x_U : ArrId} {r : Heap × Int}
    (hr : bare_solve_buffers ns n m h x g obj_val mult_g mult_x_L mult_x_U
      = .ok r) :
    r = ns h [x, g, obj_val, mult_g, mult_x_L, mult_x_U] := by
  simp only [bare_solve_buffers] at hr
  split at hr
  · cases hr
  · split at hr
    · cases hr
    · split at hr
      · cases hr
      · split at hr
        · cases hr
        · split at hr
          · cases hr
          · split at hr
            · cases hr
            · exact (Except.ok.injEq _ _).mp hr.symm |>.symm ▸ rfl

/-- Inversion of the copying x preparation. -/
theorem ez_prepare_x_copy_ok {h : Heap} {x : ArrId} {n : Nat}
    {r : Heap × ArrId} (hr : ez_prepare_x h x n true = .ok r) :
    ∃ bx, broadcast_to (h.read x) n = some bx ∧ r = h.alloc bx := by
  simp only [ez_prepare_x, if_pos rfl] at hr
  cases hbx : broadcast_to (h.read x) n with
  | none => rw [hbx] at hr; cases hr
  | some bx =>
      rw [hbx] at hr
      refine ⟨bx, rfl, ?_⟩
      injection hr with h2
      exact h2.symm

/-- `h2` extends `h`: every array allocated in `h` is still there with the
same contents (allocation only appends). -/
def Heap.ext_of (h2 h : Heap) : Prop :=
  h.size ≤ h2.size ∧ ∀ i, i < h.size → h2.read i = h.read i

theorem Heap.ext_of_refl (h : Heap) : h.ext_of h :=
  ⟨le_refl _, fun _ _ => rfl⟩

theorem Heap.ext_of_trans {h3 h2 h1 : Heap} (a : h3.ext_of h2)
    (b : h2.ext_of h1) : h3.ext_of h1 :=
  ⟨le_trans b.1 a.1, fun i hi => by
    rw [a.2 i (lt_of_lt_of_le hi b.1), b.2 i hi]⟩

theorem Heap.alloc_ext (h : Heap) (v : List R) : (h.alloc v).1.ext_of h :=
  ⟨by rw [Heap.size_alloc]; omega, fun i hi => Heap.read_alloc_lt h v i hi⟩

theorem alloc_opt_ext (h : Heap) (o : Option ArrId) (v : List R) :
    (alloc_opt h o v).1.ext_of h := by
  cases o with
  | none => exact Heap.alloc_ext h v
  | some i => exact Heap.ext_of_refl h

theorem ez_prepare_x_ext {h : Heap} {x : ArrId} {n : Nat} {copy : Bool}
    {r : Heap × ArrId} (hr : ez_prepare_x h x n copy = .ok r) :
    r.1.ext_of h := by
  cases copy with
  | false =>
      simp only [ez_prepare_x] at hr
      rw [if_neg Bool.false_ne_true] at hr
      injection hr with h2
      rw [← h2]
      exact Heap.ext_of_refl h
  | true =>
      obtain ⟨bx, hbx, hr2⟩ := ez_prepare_x_copy_ok hr
      rw [hr2]
      exact Heap.alloc_ext h bx

/-- C6: on every successful `ez.Problem.solve`, the option
`warm_start_init_point` is set to yes iff some multiplier was supplied, and
before the native solve runs; each unsupplied multiplier is freshly
allocated zero-filled (length m for `mult_g`, n for `mult_x_L` and
`mult_x_U`) and is the array returned in the info dict, a supplied
multiplier is returned as given, and the info dict carries `g`, `obj_val`
and the native solver's status. -/
theorem c6_warm_start_and_multiplier_buffers :
    ∀ (ns : NativeSolve) (n m : Nat) (so : Bool) (jg : List R) (jo : R)
      (h0 : Heap) (x : ArrId) (mg0 ml0 mu0 : Option ArrId) (copy : Bool)
      (out : EzSolveOut),
      ez_solve ns n m so jg jo h0 x mg0 ml0 mu0 copy = .ok out →
      (out.events = [.addStrOption "warm_start_init_point"
          (if mg0.isSome || ml0.isSome || mu0.isSome then "yes" else "no"),
        .nativeSolve [out.x_out, out.info_g, out.info_obj_val,
          out.info_mult_g, out.info_mult_x_L, out.info_mult_x_U]]) ∧
      (mg0 = none → h0.size ≤ out.info_mult_g ∧
        out.heap_before_solve.read out.info_mult_g = List.replicate m 0) ∧
      (ml0 = none → h0.size ≤ out.info_mult_x_L ∧
        out.heap_before_solve.read out.info_mult_x_L = List.replicate n 0) ∧
      (mu0 = none → h0.size ≤ out.info_mult_x_U ∧
        out.heap_before_solve.read out.info_mult_x_U = List.replicate n 0) ∧
      (∀ i, mg0 = some i → out.info_mult_g = i) ∧
      (∀ i, ml0 = some i → out.info_mult_x_L = i) ∧
      (∀ i, mu0 = some i → out.info_mult_x_U = i) ∧
      ((out.heap, out.info_status) = ns out.heap_before_solve
          [out.x_out, out.info_g, out.info_obj_val, out.info_mult_g,
           out.info_mult_x_L, out.info_mult_x_U]) := by
  intro ns n m so jg jo h0 x mg0 ml0 mu0 copy out h
  simp only [ez_solve] at h
  split at h
  · cases h
  set p1 := alloc_opt h0 mg0 (List.replicate m 0) with hp1
  set p2 := alloc_opt p1.1 ml0 (List.replicate n 0) with hp2
  set p3 := alloc_opt p2.1 mu0 (List.replicate n 0) with hp3
  set p4 := p3.1.alloc jg with hp4
  set p5 := p4.1.alloc [jo] with hp5
  split at h
  · cases h
  next hx hpx =>
  split at h
  · cases h
  next hs hbs =>
  injection h with h2
  subst h2
  have e2 : p2.1.ext_of p1.1 := hp2 ▸ alloc_opt_ext p1.1 ml0 _
  have e3 : p3.1.ext_of p2.1 := hp3 ▸ alloc_opt_ext p2.1 mu0 _
  have e4 : p4.1.ext_of p3.1 := hp4 ▸ Heap.alloc_ext p3.1 jg
  have e5 : p5.1.ext_of p4.1 := hp5 ▸ Heap.alloc_ext p4.1 [jo]
  have ex : hx.1.ext_of p5.1 := ez_prepare_x_ext hpx
  have ex1 : hx.1.ext_of p1.1 :=
    Heap.ext_of_trans ex (Heap.ext_of_trans e5
      (Heap.ext_of_trans e4 (Heap.ext_of_trans e3 e2)))
  have ex2 : hx.1.ext_of p2.1 :=
    Heap.ext_of_trans ex (Heap.ext_of_trans e5
      (Heap.ext_of_trans e4 e3))
  have ex3 : hx.1.ext_of p3.1 :=
    Heap.ext_of_trans ex (Heap.ext_of_trans e5 e4)
  refine ⟨rfl, ?_, ?_, ?_, ?_, ?_, ?_, ?_⟩
  · intro hmg
    subst hmg
    have hid : p1.2 = h0.size := by rw [hp1]; rfl
    have hply : p1.1 = (h0.alloc (List.replicate m 0)).1 := by rw [hp1]; rfl
    have hlt : h0.size < p1.1.size := by
      rw [hply, Heap.size_alloc]; omega
    constructor
    · simpa [hid] using le_refl h0.size
    · show hx.1.read p1.2 = List.replicate m 0
      rw [hid, ex1.2 h0.size hlt, hply, Heap.read_alloc_self]
  · intro hml
    subst hml
    have hid : p2.2 = p1.1.size := by rw [hp2]; rfl
    have hply : p2.1 = (p1.1.alloc (List.replicate n 0)).1 := by
      rw [hp2]; rfl
    have hlt : p1.1.size < p2.1.size := by
      rw [hply, Heap.size_alloc]; omega
    have hge : h0.size ≤ p1.1.size := (alloc_opt_ext h0 mg0 _).1
    constructor
    · show h0.size ≤ p2.2
      rw [hid]; exact hge
    · show hx.1.read p2.2 = List.replicate n 0
      rw [hid, ex2.2 p1.1.size hlt, hply, Heap.read_alloc_self]
  · intro hmu
    subst hmu
    have hid : p3.2 = p2.1.size := by rw [hp3]; rfl
    have hply : p3.1 = (p2.1.alloc (List.replicate n 0)).1 := by
      rw [hp3]; rfl
    have hlt : p2.1.size < p3.1.size := by
      rw [hply, Heap.size_alloc]; omega
    have hge : h0.size ≤ p2.1.size :=
      le_trans (alloc_opt_ext h0 mg0 _).1 e2.1
    constructor
    · show h0.size ≤ p3.2
      rw [hid]; exact hge
    · show hx.1.read p3.2 = List.replicate n 0
      rw [hid, ex3.2 p2.1.size hlt, hply, Heap.read_alloc_self]
  · intro i hmg
    subst hmg
    show p1.2 = i
    rw [hp1]; rfl
  · intro i hml
    subst hml
    show p2.2 = i
    rw [hp2]; rfl
  · intro i hmu
    subst hmu
    show p3.2 = i
    rw [hp3]; rfl
  · exact (bare_solve_buffers_ok hbs) ▸ rfl

/-- A concrete native solver for witnesses: leaves every buffer unchanged
and reports status 42.  It trivially satisfies the FFI frame contract. -/
def ns0 : NativeSolve := fun h _ => (h, 42)

theorem ns0_frame_ok : frame_ok ns0 := fun _ _ _ _ => rfl

/-- The outcome of the concrete witness solve: one caller array [7] at id
0, zero-filled multipliers at ids 1-3, g and obj_val at ids 4-5, the copy
of x at id 6. -/
def ez_demo_out : EzSolveOut :=
  ⟨[.addStrOption "warm_start_init_point" "no",
    .nativeSolve [6, 4, 5, 1, 2, 3]],
   6, 4, 5, 1, 2, 3, 42,
   ⟨[[7], [0], [0], [0], [3], [5], [7]]⟩,
   ⟨[[7], [0], [0], [0], [3], [5], [7]]⟩⟩

/-- Witness for C6 at a concrete solve (n = m = 1, no multipliers
supplied): the option event precedes the native solve, `mult_g` is a fresh
zero-filled array, and the status is the native status. -/
theorem c6_witness :
    ez_demo_out.heap_before_solve.read ez_demo_out.info_mult_g = List.replicate 1 0 ∧
    ez_demo_out.events = [.addStrOption "warm_start_init_point" "no",
      .nativeSolve [ez_demo_out.x_out, ez_demo_out.info_g, ez_demo_out.info_obj_val,
        ez_demo_out.info_mult_g, ez_demo_out.info_mult_x_L, ez_demo_out.info_mult_x_U]] ∧
    ez_demo_out.info_status = 42 := by
  have h := c6_warm_start_and_multiplier_buffers ns0 1 1 true [3] 5
    ⟨[[7]]⟩ 0 none none none true ez_demo_out rfl
  refine ⟨(h.2.1 rfl).2, by simpa using h.1, ?_⟩
  have h8 := h.2.2.2.2.2.2.2
  simpa [ns0] using congrArg Prod.snd h8

/-- C7: with `copy=True`, a successful `ez.Problem.solve` leaves the
caller's `x` array untouched: `x` is broadcast to shape (n,) and copied
into a newly allocated array, only that copy (never the caller's id) is
among the buffers handed to the native solver, the copy is returned as the
solution vector, and the `g` and `obj_val` buffers are freshly allocated
on every call. -/
theorem c7_copy_protects_caller_x :
    ∀ (ns : NativeSolve) (n m : Nat) (so : Bool) (jg : List R) (jo : R)
      (h0 : Heap) (x : ArrId) (mg0 ml0 mu0 : Option ArrId)
      (out : EzSolveOut),
      frame_ok ns →
      x < h0.size →
      (∀ i, mg0 = some i → i ≠ x) →
      (∀ i, ml0 = some i → i ≠ x) →
      (∀ i, mu0 = some i → i ≠ x) →
      ez_solve ns n m so jg jo h0 x mg0 ml0 mu0 true = .ok out →
      out.heap.read x = h0.read x ∧
      x ≠ out.x_out ∧ h0.size ≤ out.x_out ∧
      (∃ bx, broadcast_to (h0.read x) n = some bx ∧
        out.heap_before_solve.read out.x_out = bx) ∧
      h0.size ≤ out.info_g ∧ h0.size ≤ out.info_obj_val ∧
      out.info_g ≠ out.info_obj_val ∧ out.info_g ≠ out.x_out ∧
      out.info_obj_val ≠ out.x_out ∧
      x ∉ [out.x_out, out.info_g, out.info_obj_val, out.info_mult_g,
           out.info_mult_x_L, out.info_mult_x_U] := by
  intro ns n m so jg jo h0 x mg0 ml0 mu0 out hfr hx0 hmg hml hmu h
  simp only [ez_solve] at h
  split at h
  · cases h
  set p1 := alloc_opt h0 mg0 (List.replicate m 0) with hp1
  set p2 := alloc_opt p1.1 ml0 (List.replicate n 0) with hp2
  set p3 := alloc_opt p2.1 mu0 (List.replicate n 0) with hp3
  set p4 := p3.1.alloc jg with hp4
  set p5 := p4.1.alloc [jo] with hp5
  split at h
  · cases h
  next hx hpx =>
  split at h
  · cases h
  next hs hbs =>
  injection h with h2
  subst h2
  obtain ⟨bx, hbx, hxeq⟩ := ez_prepare_x_copy_ok hpx
  have s01 : h0.size ≤ p1.1.size := (alloc_opt_ext h0 mg0 _).1
  have s12 : p1.1.size ≤ p2.1.size := (alloc_opt_ext p1.1 ml0 _).1
  have s23 : p2.1.size ≤ p3.1.size := (alloc_opt_ext p2.1 mu0 _).1
  have s34 : p4.1.size = p3.1.size + 1 := Heap.size_alloc p3.1 jg
  have s45 : p5.1.size = p4.1.size + 1 := Heap.size_alloc p4.1 [jo]
  have ep5 : p5.1.ext_of h0 :=
    Heap.ext_of_trans (Heap.alloc_ext p4.1 [jo])
      (Heap.ext_of_trans (Heap.alloc_ext p3.1 jg)
        (Heap.ext_of_trans (alloc_opt_ext p2.1 mu0 _)
          (Heap.ext_of_trans (alloc_opt_ext p1.1 ml0 _)
            (alloc_opt_ext h0 mg0 _))))
  have hreadx : p5.1.read x = h0.read x := ep5.2 x hx0
  have hxid : hx.2 = p5.1.size := by rw [hxeq]; rfl
  have hxheap : hx.1 = (p5.1.alloc bx).1 := by rw [hxeq]
  have hxlt : x < p5.1.size := lt_of_lt_of_le hx0 ep5.1
  have hg_id : p4.2 = p3.1.size := rfl
  have ho_id : p5.2 = p4.1.size := rfl
  have le03 : h0.size ≤ p3.1.size := le_trans s01 (le_trans s12 s23)
  have le34 : p3.1.size ≤ p4.1.size := by rw [s34]; exact Nat.le_succ _
  have le45 : p4.1.size ≤ p5.1.size := by rw [s45]; exact Nat.le_succ _
  have nx1 : x ≠ hx.2 := by rw [hxid]; exact Nat.ne_of_lt hxlt
  have nx2 : x ≠ p4.2 := by
    rw [hg_id]; exact Nat.ne_of_lt (lt_of_lt_of_le hx0 le03)
  have nx3 : x ≠ p5.2 := by
    rw [ho_id]
    exact Nat.ne_of_lt (lt_of_lt_of_le hx0 (le_trans le03 le34))
  have nx4 : x ≠ p1.2 := by
    cases hm : mg0 with
    | none =>
        have hi : p1.2 = h0.size := by rw [hp1, hm]; rfl
        rw [hi]; exact Nat.ne_of_lt hx0
    | some i =>
        have hi : p1.2 = i := by rw [hp1, hm]; rfl
        rw [hi]; exact (hmg i hm).symm
  have nx5 : x ≠ p2.2 := by
    cases hm : ml0 with
    | none =>
        have hi : p2.2 = p1.1.size := by rw [hp2, hm]; rfl
        rw [hi]; exact Nat.ne_of_lt (lt_of_lt_of_le hx0 s01)
    | some i =>
        have hi : p2.2 = i := by rw [hp2, hm]; rfl
        rw [hi]; exact (hml i hm).symm
  have nx6 : x ≠ p3.2 := by
    cases hm : mu0 with
    | none =>
        have hi : p3.2 = p2.1.size := by rw [hp3, hm]; rfl
        rw [hi]; exact Nat.ne_of_lt (lt_of_lt_of_le hx0 (le_trans s01 s12))
    | some i =>
        have hi : p3.2 = i := by rw [hp3, hm]; rfl
        rw [hi]; exact (hmu i hm).symm
  have hnotin : x ∉ [hx.2, p4.2, p5.2, p1.2, p2.2, p3.2] := by
    simp only [List.mem_cons, List.not_mem_nil, or_false]
    push_neg
    exact ⟨nx1, nx2, nx3, nx4, nx5, nx6⟩
  have hns := bare_solve_buffers_ok hbs
  refine ⟨?_, nx1, ?_, ?_, ?_, ?_, ?_, ?_, ?_, hnotin⟩
  · show hs.1.read x = h0.read x
    rw [hns]
    rw [hfr hx.1 [hx.2, p4.2, p5.2, p1.2, p2.2, p3.2] x hnotin]
    rw [hxheap, Heap.read_alloc_lt p5.1 bx x hxlt]
    exact hreadx
  · show h0.size ≤ hx.2
    rw [hxid]; exact ep5.1
  · refine ⟨bx, ?_, ?_⟩
    · rw [← hreadx]; exact hbx
    · show hx.1.read hx.2 = bx
      rw [hxid, hxheap]
      exact Heap.read_alloc_self p5.1 bx
  · show h0.size ≤ p4.2
    rw [hg_id]; exact le03
  · show h0.size ≤ p5.2
    rw [ho_id]; exact le_trans le03 le34
  · show p4.2 ≠ p5.2
    rw [hg_id, ho_id]
    exact Nat.ne_of_lt (by rw [s34]; exact Nat.lt_succ_self _)
  · show p4.2 ≠ hx.2
    rw [hg_id, hxid]
    exact Nat.ne_of_lt (lt_of_lt_of_le
      (by rw [s34]; exact Nat.lt_succ_self _) le45)
  · show p5.2 ≠ hx.2
    rw [ho_id, hxid]
    exact Nat.ne_of_lt (by rw [s45]; exact Nat.lt_succ_self _)

/-- Witness for C7 at the concrete solve of `ez_demo_out`: the caller's
array keeps its contents, the returned solution is the fresh copy, and the
native solver never saw the caller's id. -/
theorem c7_witness :
    ez_demo_out.heap.read 0 = [7] ∧ (0 : ArrId) ≠ ez_demo_out.x_out ∧
    ez_demo_out.heap_before_solve.read ez_demo_out.x_out = [7] := by
  have h := c7_copy_protects_caller_x ns0 1 1 true [3] 5 ⟨[[7]]⟩ 0
    none none none ez_demo_out ns0_frame_ok (by decide)
    (fun i hi => by cases hi) (fun i hi => by cases hi)
    (fun i hi => by cases hi) rfl
  obtain ⟨hheap, hne, hge, ⟨bx, hbx, hread⟩, _⟩ := h
  have hbx2 : bx = [7] := by
    simpa [broadcast_to, Heap.read] using hbx.symm
  exact ⟨by simpa [Heap.read] using hheap, hne, by rw [hread, hbx2]⟩
